import Mathlib

/-!
Shallow embedding of the simulation / scene-control core of
`snake3d_pause_hold_version.py` (a tile-grid snake game built as a
black-box-testing target).  Pure rendering code is out of scope; every
definition below is translated line-by-line from the Python source:

* grid constants, `rand_cell`-style random draws (injected as explicit
  oracles, one per `spawn_apple` call),
* `Game.spawn_apple`, `Game.reset`, `Game.restart`, `Game.resume`,
  the scene-changing button callbacks and `Button.handle` / `Slider.handle`,
* `Game.handle_events` (one pygame event at a time),
* `Game.step` (tick increment, direction resolution with the 12-tick
  reversal anomaly, border check, invisible-barrier check, move,
  apple check with the phantom-consumption anomaly, tail trim,
  self-collision check),
* the `main` startup speed application.

Randomness (`random.random()`, `random.randint`) is modelled by explicit
parameters: a `SpawnRand` oracle per `spawn_apple` call (one rational
roll for the bypass probability plus a stream of drawn cells) and a `Nat`
parameter for each `randint(3000, 8000)` auto-pause draw.
-/

namespace Snake3D

/-- Grid cell, a pair of integer coordinates `(x, y)`. -/
abbrev Cell := Int × Int

/-- `GRID_W` from the source: board width in cells. -/
def GRID_W : Int := 26

/-- `GRID_H` from the source: board height in cells. -/
def GRID_H : Int := 20

/-- `FPS_BASE` from the source: base speed. -/
def FPS_BASE : Int := 10

/-- `MAX_FPS` from the source. -/
def MAX_FPS : Int := 22

/-- The scene string of the Python source, as an enumeration. -/
inductive Scene where
  | menu
  | play
  | paused
  | help
  | gameover
deriving DecidableEq, Repr

/-- Keys that the event handler distinguishes.  Arrow keys and their WASD
aliases collapse to one constructor each, exactly as the source treats
them identically. -/
inductive GKey where
  | kp
  | kr
  | kreturn
  | kescape
  | kleft
  | kright
  | kup
  | kdown
  | kother
deriving DecidableEq, Repr

/-- A pygame event, restricted to the constructors the core reads:
key down/up, mouse button down/up (button number and position) and mouse
motion (left-button-pressed flag and position).  Positions are integer
pixel coordinates, as pygame reports them. -/
inductive GEvent where
  | keydown (k : GKey)
  | keyup (k : GKey)
  | mousebuttonup (button : Nat) (pos : Int × Int)
  | mousebuttondown (button : Nat) (pos : Int × Int)
  | mousemotion (leftPressed : Bool) (pos : Int × Int)

/-- Randomness consumed by one `spawn_apple` call: the `random.random()`
roll compared against `0.22`, and the stream of `rand_cell()` draws
(attempt index ↦ drawn cell). -/
structure SpawnRand where
  roll : ℚ
  cells : Nat → Cell

/-- The mutable state of the Python `Game` object (simulation and scene
fields only; fonts, surfaces and pre-rendered backgrounds are rendering
state).  `slider_value` is `self.slider.value`; `terminated` records that
`quit` ran (`pygame.quit(); sys.exit()`). -/
structure GameState where
  snake : List Cell
  direction : Cell
  next_dir : Cell
  ticks : Nat
  score : Nat
  best : Nat
  speed : Int
  speed_pending : Int
  apples : List Cell
  invis_x : Int
  invis_y1 : Int
  invis_y2 : Int
  game_over : Bool
  scene : Scene
  slider_value : ℚ
  pause_auto_ms : Nat
  pause_started : Option Nat
  terminated : Bool

/-- `lerp(a, b, t) = a + (b - a) * t` from the source. -/
def lerp (a b t : ℚ) : ℚ := a + (b - a) * t

/-- `clamp(x, a, b) = max(a, min(b, x))` from the source, at type `ℚ`. -/
def clampQ (x a b : ℚ) : ℚ := max a (min b x)

/-- `clamp(x, a, b) = max(a, min(b, x))` from the source, at type `Int`. -/
def clampI (x a b : Int) : Int := max a (min b x)

/-- Python `int()` applied to a rational: truncation toward zero. -/
def pyint (q : ℚ) : Int :=
  if 0 ≤ q then q.num / (q.den : Int) else -((-q.num) / (q.den : Int))

/-- The occupancy test of `spawn_apple`:
`(x, y) not in self.snake and (x, y) not in self.apples`. -/
def cellFree (snake apples : List Cell) (c : Cell) : Bool :=
  decide (c ∉ snake) && decide (c ∉ apples)

/-- The `for _ in range(200)` loop body of `spawn_apple`: `fuel` is the
number of attempts left, `k` the index of the next draw in the oracle
stream.  `if bypass or (x, y) not in self.snake and (x, y) not in
self.apples: self.apples.append((x, y)); return`. -/
def spawn_loop (snake apples : List Cell) (bypass : Bool) (cells : Nat → Cell) :
    Nat → Nat → List Cell
  | 0, _ => apples
  | fuel + 1, k =>
    let c := cells k
    if bypass || cellFree snake apples c then apples ++ [c]
    else spawn_loop snake apples bypass cells fuel (k + 1)

/-- The bypass probability of `spawn_apple`: the literal `0.22`. -/
def bypass_threshold : ℚ := Rat.divInt 22 100

/-- `Game.spawn_apple`: `bypass = random.random() < 0.22`, evaluated once
per call, then up to 200 draws. -/
def spawn_apple (r : SpawnRand) (snake apples : List Cell) : List Cell :=
  spawn_loop snake apples (decide (r.roll < bypass_threshold)) r.cells 200 0

/-- `Game.reset(full)`: re-seed the snake at the board centre moving
`(1, 0)`, zero the tick counter and score (and the best score when
`full`), reset speed fields, spawn two apples (consuming the two oracles
`r1`, `r2` in order), and re-position the invisible barrier. -/
def reset (full : Bool) (r1 r2 : SpawnRand) (s : GameState) : GameState :=
  let cx := GRID_W / 2
  let cy := GRID_H / 2
  let snake : List Cell := [(cx - 2, cy), (cx - 1, cy), (cx, cy)]
  let apples1 := spawn_apple r1 snake []
  let apples2 := spawn_apple r2 snake apples1
  { s with
    snake := snake
    direction := (1, 0)
    next_dir := (1, 0)
    ticks := 0
    score := 0
    best := if full then 0 else s.best
    speed := FPS_BASE
    speed_pending := FPS_BASE
    apples := apples2
    invis_x := GRID_W / 3
    invis_y1 := 4
    invis_y2 := GRID_H - 5
    game_over := false }

/-- `Game.start_game` button callback. -/
def start_game (s : GameState) : GameState := { s with scene := .play }

/-- `Game.show_help` button callback. -/
def show_help (s : GameState) : GameState := { s with scene := .help }

/-- `Game.goto_menu` button callback. -/
def goto_menu (s : GameState) : GameState := { s with scene := .menu }

/-- `Game.resume`: back to play, clear `pause_started`, re-roll the
auto-pause window (`pms` is the `randint(3000, 8000)` draw). -/
def resume_op (pms : Nat) (s : GameState) : GameState :=
  { s with scene := .play, pause_started := none, pause_auto_ms := pms }

/-- `Game.restart`: non-full reset, then apply the slider to the speed
(the only place besides startup where the applied rate is recomputed),
then enter play.  `preview = int(max(6, min(MAX_FPS, int(lerp(6,
MAX_FPS, self.slider.value)))))`. -/
def restart_op (r1 r2 : SpawnRand) (pms : Nat) (s : GameState) : GameState :=
  let s1 := reset false r1 r2 s
  let preview := max 6 (min MAX_FPS (pyint (lerp 6 (MAX_FPS : ℚ) s1.slider_value)))
  { s1 with
    speed := preview
    scene := .play
    pause_started := none
    pause_auto_ms := pms }

/-- `Game.quit`: `pygame.quit(); sys.exit()`; modelled as a terminal
flag (it is always the last handler that can fire for an event). -/
def quit_op (s : GameState) : GameState := { s with terminated := true }

/-- A pygame `Rect` (integer pixel coordinates). -/
structure Rect where
  x : Int
  y : Int
  w : Int
  h : Int

/-- `Rect.collidepoint`: inside test, right and bottom edges excluded. -/
def collidepoint (r : Rect) (p : Int × Int) : Bool :=
  decide (r.x ≤ p.1) && decide (p.1 < r.x + r.w) &&
  decide (r.y ≤ p.2) && decide (p.2 < r.y + r.h)

/-- `_build_ui` geometry: `bx = GRID_W*TILE + 14 = 690`, `by = 40`,
buttons `SIDEPANEL - 28 = 192` wide and `44` tall, at `by`, `by+56`,
`by+112`; slider at `by + 190 = 230`, height 28. -/
def btn_start_rect : Rect := ⟨690, 40, 192, 44⟩

/-- `btn_help` rectangle from `_build_ui`. -/
def btn_help_rect : Rect := ⟨690, 96, 192, 44⟩

/-- `btn_quit` rectangle from `_build_ui`. -/
def btn_quit_rect : Rect := ⟨690, 152, 192, 44⟩

/-- `btn_resume` rectangle from `_build_ui` (same slot as `btn_start`). -/
def btn_resume_rect : Rect := ⟨690, 40, 192, 44⟩

/-- `btn_restart` rectangle from `_build_ui`. -/
def btn_restart_rect : Rect := ⟨690, 96, 192, 44⟩

/-- `btn_menu` rectangle from `_build_ui`. -/
def btn_menu_rect : Rect := ⟨690, 152, 192, 44⟩

/-- Speed slider rectangle from `_build_ui`. -/
def slider_rect : Rect := ⟨690, 230, 192, 28⟩

/-- `Button.handle`: on `MOUSEBUTTONUP` with button 1 inside the rect run
the callback; then, independently, on `KEYUP` of the hotkey run the
callback. -/
def button_handle (rect : Rect) (hotkey : Option GKey) (cb : GameState → GameState)
    (e : GEvent) (s : GameState) : GameState :=
  let s1 := match e with
    | .mousebuttonup b pos => if b == 1 && collidepoint rect pos then cb s else s
    | _ => s
  match hotkey, e with
  | some k, .keyup k2 => if k2 = k then cb s1 else s1
  | _, _ => s1

/-- `Slider._update_value`:
`value = clamp((pos[0] - rect.x) / max(1, rect.w), 0.0, 1.0)` — integer
pixel offset, true (rational) division by `max(1, rect.w)`. -/
def slider_update_value (pos : Int × Int) (s : GameState) : GameState :=
  { s with slider_value :=
      clampQ (((pos.1 - slider_rect.x : Int) : ℚ) / ((max 1 slider_rect.w : Int) : ℚ)) 0 1 }

/-- `Slider.handle`: left mouse button down inside the rect, or mouse
motion with the left button held inside the rect, updates the value. -/
def slider_handle (e : GEvent) (s : GameState) : GameState :=
  match e with
  | .mousebuttondown b pos =>
      if b == 1 && collidepoint slider_rect pos then slider_update_value pos s else s
  | .mousemotion lp pos =>
      if lp && collidepoint slider_rect pos then slider_update_value pos s else s
  | _ => s

/-- First `if` of the `KEYDOWN` section:
`if e.key in (pygame.K_ESCAPE,): self.goto_menu()`. -/
def key_escape (k : GKey) (s : GameState) : GameState :=
  if k = .kescape then goto_menu s else s

/-- Second `if` of the `KEYDOWN` section: `P` toggles play/paused. -/
def key_pause (k : GKey) (s : GameState) : GameState :=
  if k = .kp then
    (if s.scene = .play then { s with scene := .paused }
     else if s.scene = .paused then { s with scene := .play }
     else s)
  else s

/-- Third `if` of the `KEYDOWN` section: `R`/`Enter` restarts while the
scene is play, paused or gameover. -/
def key_restart (r1 r2 : SpawnRand) (pms : Nat) (k : GKey) (s : GameState) :
    GameState :=
  if (s.scene = .play ∨ s.scene = .paused ∨ s.scene = .gameover) ∧
     (k = .kr ∨ k = .kreturn)
  then restart_op r1 r2 pms s else s

/-- Fourth `if` of the `KEYDOWN` section: arrow/WASD keys set `next_dir`
while the scene (as mutated by the previous `if`s) is play. -/
def key_dir (k : GKey) (s : GameState) : GameState :=
  if s.scene = .play then
    match k with
    | .kleft => { s with next_dir := (-1, 0) }
    | .kright => { s with next_dir := (1, 0) }
    | .kup => { s with next_dir := (0, -1) }
    | .kdown => { s with next_dir := (0, 1) }
    | _ => s
  else s

/-- The `KEYDOWN` section of `Game.handle_events`: escape to menu, `P`
toggles play/paused, `R`/`Enter` restarts from play/paused/gameover, and
the arrow/WASD keys set `next_dir` while in play.  Each `if` reads the
scene as mutated by the previous ones, exactly like the source. -/
def key_part (r1 r2 : SpawnRand) (pms : Nat) (k : GKey) (s : GameState) : GameState :=
  key_dir k (key_restart r1 r2 pms k (key_pause k (key_escape k s)))

/-- One iteration of the `Game.handle_events` loop on a single event:
the `KEYDOWN` section, then the scene-dependent UI section (buttons with
their hotkeys, plus the slider while paused), in source order.  The
oracles `r1`, `r2`, `pms` feed a `restart`/`resume` if one fires. -/
def handle_event (r1 r2 : SpawnRand) (pms : Nat) (e : GEvent) (s : GameState) :
    GameState :=
  let s1 := match e with
    | .keydown k => key_part r1 r2 pms k s
    | _ => s
  match s1.scene with
  | .menu =>
      button_handle btn_quit_rect none quit_op e
        (button_handle btn_help_rect none show_help e
          (button_handle btn_start_rect (some .kreturn) start_game e s1))
  | .paused =>
      slider_handle e
        (button_handle btn_menu_rect none goto_menu e
          (button_handle btn_restart_rect (some .kr) (restart_op r1 r2 pms) e
            (button_handle btn_resume_rect (some .kp) (resume_op pms) e s1)))
  | .gameover =>
      button_handle btn_quit_rect none quit_op e
        (button_handle btn_menu_rect none goto_menu e
          (button_handle btn_restart_rect (some .kr) (restart_op r1 r2 pms) e s1))
  | _ => s1

/-- Direction resolution at the start of `Game.step` (with `t` the
already-incremented tick counter): `if (ndx, ndy) != (-dx, -dy) or
(self.ticks % 12 == 0): self.direction = (ndx, ndy)`. -/
def resolve_dir (t : Nat) (nd d : Cell) : Cell :=
  if nd ≠ (-d.1, -d.2) ∨ t % 12 = 0 then nd else d

/-- The snake's head, `self.snake[-1]` (the deque is tail-first,
head-last). -/
def head_cell (s : GameState) : Cell := s.snake.getLastD (0, 0)

/-- The direction `Game.step` resolves for the current tick. -/
def dir_of (s : GameState) : Cell := resolve_dir (s.ticks + 1) s.next_dir s.direction

/-- The candidate head cell of the current tick:
`nx, ny = hx + self.direction[0], hy + self.direction[1]`. -/
def cand_of (s : GameState) : Cell :=
  ((head_cell s).1 + (dir_of s).1, (head_cell s).2 + (dir_of s).2)

/-- `0 <= nx < GRID_W and 0 <= ny < GRID_H`. -/
def in_bounds (c : Cell) : Prop :=
  0 ≤ c.1 ∧ c.1 < GRID_W ∧ 0 ≤ c.2 ∧ c.2 < GRID_H

instance (c : Cell) : Decidable (in_bounds c) := by
  unfold in_bounds; infer_instance

/-- `nx == self.invis_x and self.invis_y1 <= ny <= self.invis_y2`. -/
def in_barrier (s : GameState) (c : Cell) : Prop :=
  c.1 = s.invis_x ∧ s.invis_y1 ≤ c.2 ∧ c.2 ≤ s.invis_y2

instance (s : GameState) (c : Cell) : Decidable (in_barrier s c) := by
  unfold in_barrier; infer_instance

/-- The round-ending mutation shared by the border and self-collision
branches: `self.game_over = True; self.scene = 'gameover';
self.best = max(self.best, self.score)`. -/
def game_over_state (s : GameState) : GameState :=
  { s with game_over := true, scene := .gameover, best := max s.best s.score }

/-- The `for i, (ax, ay) in enumerate(list(self.apples))` loop of
`Game.step`: scan for the first apple at the candidate cell `c`; on a
phantom hit (`self.direction == (-1, 0) and ay % 2 == 0`) keep the list
and spawn; on a normal hit delete it, score, and spawn; `break` either
way.  `pre` accumulates the already-scanned portion of the list.
Returns `(score increment, ate flag, new apple list)`. -/
def apple_scan (dir c : Cell) (snake : List Cell) (r : SpawnRand) :
    List Cell → List Cell → Nat × Bool × List Cell
  | pre, [] => (0, false, pre)
  | pre, a :: rest =>
    if a = c then
      if dir = ((-1 : Int), (0 : Int)) ∧ a.2 % 2 = 0 then
        (0, false, spawn_apple r snake (pre ++ a :: rest))
      else
        (1, true, spawn_apple r snake (pre ++ rest))
    else apple_scan dir c snake r (pre ++ [a]) rest

/-- `Game.step`, one simulation tick: increment `ticks`, resolve the
direction (12-tick reversal anomaly), compute the candidate head; out of
bounds ends the round; a candidate inside the invisible barrier returns
with nothing but `ticks` and `direction` changed; otherwise append the
head, run the apple check, trim the tail unless the tick "grew", and run
the self-collision check. -/
def step (r : SpawnRand) (s : GameState) : GameState :=
  let d := dir_of s
  let n := cand_of s
  let s1 : GameState := { s with ticks := s.ticks + 1, direction := d }
  if ¬ in_bounds n then game_over_state s1
  else if in_barrier s n then s1
  else
    let snake1 := s1.snake ++ [n]
    let res := apple_scan d n snake1 r [] s1.apples
    let snake2 := if res.2.1 then snake1 else snake1.tail
    let s2 : GameState := { s1 with
      snake := snake2, score := s1.score + res.1, apples := res.2.2 }
    if snake2.getLastD (0, 0) ∈ snake2.dropLast then game_over_state s2 else s2

/-- The state after `Game.__init__` (`reset(full=True)`, scene `menu`)
followed by `main`'s one-time startup application of the slider to the
speed: `preview = int(lerp(6, MAX_FPS, game.slider.value));
game.speed = clamp(preview, 6, MAX_FPS)`.  The slider starts at
`(FPS_BASE - 6) / (MAX_FPS - 6)`. -/
def init_state (r1 r2 : SpawnRand) (pms : Nat) : GameState :=
  let base : GameState := {
    snake := []
    direction := (1, 0)
    next_dir := (1, 0)
    ticks := 0
    score := 0
    best := 0
    speed := FPS_BASE
    speed_pending := FPS_BASE
    apples := []
    invis_x := 0
    invis_y1 := 0
    invis_y2 := 0
    game_over := false
    scene := .menu
    slider_value := ((FPS_BASE : ℚ) - 6) / ((MAX_FPS : ℚ) - 6)
    pause_auto_ms := pms
    pause_started := none
    terminated := false }
  let s := reset true r1 r2 base
  { s with
    scene := .menu
    speed := clampI (pyint (lerp 6 (MAX_FPS : ℚ) s.slider_value)) 6 MAX_FPS }

/-- States reachable by the program: the startup state, closed under
processing one input event and under one simulation tick while the scene
is `play` (the main loop only calls `step` then).  Every random draw is
universally quantified, matching an arbitrary seed. -/
inductive Reachable : GameState → Prop where
  | startup : ∀ r1 r2 pms, Reachable (init_state r1 r2 pms)
  | event : ∀ s r1 r2 pms e, Reachable s → Reachable (handle_event r1 r2 pms e s)
  | tick : ∀ s r, Reachable s → s.scene = .play → Reachable (step r s)

/-- Every snake body cell lies inside the grid. -/
def SnakeInBounds (s : GameState) : Prop := ∀ c ∈ s.snake, in_bounds c

/-- The snake seeded by `reset`: 3 cells centred on the board. -/
def initSnakeList : List Cell := [(11, 10), (12, 10), (13, 10)]

/-- A state transformer that either keeps the snake or replaces it with
the freshly seeded one. -/
def SnakeStable (f : GameState → GameState) : Prop :=
  ∀ s, (f s).snake = s.snake ∨ (f s).snake = initSnakeList

/-! ### Concrete states and oracles used to instantiate the theorems -/

/-- A plausible mid-round state: the freshly seeded snake moving right,
one apple far away, the barrier at its reset position. -/
def wState : GameState :=
  { snake := initSnakeList
    direction := (1, 0)
    next_dir := (1, 0)
    ticks := 0
    score := 0
    best := 0
    speed := 10
    speed_pending := 10
    apples := [(20, 3)]
    invis_x := 8
    invis_y1 := 4
    invis_y2 := 15
    game_over := false
    scene := .play
    slider_value := 0
    pause_auto_ms := 3000
    pause_started := none
    terminated := false }

/-- Oracle whose bypass roll fails and whose draws all land on a snake
cell, so a non-bypass `spawn_apple` exhausts its 200 attempts. -/
def cexFailRand : SpawnRand := ⟨Rat.divInt 1 2, fun _ => (13, 10)⟩

/-- Oracle whose bypass roll passes (`1/10 < 0.22`), so `spawn_apple`
accepts its first draw `(0, 0)` unconditionally. -/
def wBypassRand : SpawnRand := ⟨Rat.divInt 1 10, fun _ => (0, 0)⟩

/-- Snake one cell left of an even-row apple, moving left: the phantom
consumption setup of Scenario D. -/
def cexPhantomState : GameState :=
  { wState with
    snake := [(15, 10), (14, 10), (13, 10)]
    direction := (-1, 0)
    next_dir := (-1, 0)
    apples := [(12, 10)] }

/-- Snake moving right onto an apple with the phantom condition false:
a normal consumption setup. -/
def cexNormalState : GameState := { wState with apples := [(14, 10)] }

/-- Snake about to move right into the invisible barrier column while a
turn is pending. -/
def wBarTurnState : GameState :=
  { wState with
    snake := [(7, 8), (7, 9), (7, 10)]
    direction := (0, 1)
    next_dir := (1, 0) }

/-- Snake moving straight down into the invisible barrier. -/
def wBarState : GameState :=
  { wState with
    snake := [(9, 2), (9, 3), (8, 3)]
    direction := (0, 1)
    next_dir := (0, 1) }

/-- Snake at the right border, about to step out of the grid. -/
def wEdgeState : GameState :=
  { wState with snake := [(23, 10), (24, 10), (25, 10)] }

/-- Three stacked duplicate apples on the candidate cell. -/
def cexDupState : GameState :=
  { wState with apples := [(14, 10), (14, 10), (14, 10)] }

/-- Oracle with a failing bypass roll whose first draw is a free cell. -/
def wFreeRand : SpawnRand := ⟨Rat.divInt 1 2, fun _ => (5, 5)⟩

/-- An event that the speed slider reacts to: a left-button press or a
mouse motion. -/
def drag_event : GEvent → Prop
  | .mousebuttondown _ _ => True
  | .mousemotion _ _ => True
  | _ => False

/-- `Game.handle_events` over a whole event list, one event at a time. -/
def run_events (r1 r2 : SpawnRand) (pms : Nat) : List GEvent → GameState → GameState
  | [], s => s
  | e :: es, s => run_events r1 r2 pms es (handle_event r1 r2 pms e s)

/-- `wState`, paused. -/
def wPausedState : GameState := { wState with scene := .paused }

/-- A left-button press inside the slider rectangle. -/
def dragEv : GEvent := .mousebuttondown 1 (700, 240)

/-! ### Lemmas about `spawn_apple` -/

/-- Success predicate for one `spawn_apple` call: either the bypass roll
passes, or some cell among the 200 draws is free of snake and apples. -/
def spawn_succeeds (r : SpawnRand) (snake apples : List Cell) : Prop :=
  r.roll < bypass_threshold ∨ ∃ i < 200, cellFree snake apples (r.cells i) = true

instance (r : SpawnRand) (snake apples : List Cell) :
    Decidable (spawn_succeeds r snake apples) := by
  unfold spawn_succeeds; infer_instance

theorem spawn_loop_pos_bypass (snake apples : List Cell) (cells : Nat → Cell)
    (fuel k : Nat) (hf : 0 < fuel) :
    spawn_loop snake apples true cells fuel k = apples ++ [cells k] := by
  cases fuel with
  | zero => omega
  | succ fuel => simp [spawn_loop]

theorem spawn_loop_none (snake apples : List Cell) (cells : Nat → Cell) :
    ∀ fuel k, (∀ i, k ≤ i → i < k + fuel → cellFree snake apples (cells i) = false) →
    spawn_loop snake apples false cells fuel k = apples := by
  intro fuel
  induction fuel with
  | zero => intro k _; rfl
  | succ fuel ih =>
    intro k h
    have hk : cellFree snake apples (cells k) = false := h k le_rfl (by omega)
    simp only [spawn_loop, hk, Bool.false_or, if_neg Bool.false_ne_true]
    exact ih (k + 1) fun i h1 h2 => h i (by omega) (by omega)

theorem spawn_loop_first (snake apples : List Cell) (cells : Nat → Cell) :
    ∀ fuel k j, k ≤ j → j < k + fuel → cellFree snake apples (cells j) = true →
    (∀ i, k ≤ i → i < j → cellFree snake apples (cells i) = false) →
    spawn_loop snake apples false cells fuel k = apples ++ [cells j] := by
  intro fuel
  induction fuel with
  | zero => intro k j h1 h2; omega
  | succ fuel ih =>
    intro k j h1 h2 hj hmin
    rcases Nat.eq_or_lt_of_le h1 with rfl | hlt
    · simp [spawn_loop, hj]
    · have hk : cellFree snake apples (cells k) = false := hmin k le_rfl hlt
      simp only [spawn_loop, hk, Bool.false_or, if_neg Bool.false_ne_true]
      exact ih (k + 1) j hlt (by omega) hj fun i hi1 hi2 => hmin i (by omega) hi2

theorem spawn_loop_cases (snake apples : List Cell) (bypass : Bool)
    (cells : Nat → Cell) :
    ∀ fuel k, spawn_loop snake apples bypass cells fuel k = apples ∨
      ∃ c, spawn_loop snake apples bypass cells fuel k = apples ++ [c] := by
  intro fuel
  induction fuel with
  | zero => intro k; exact Or.inl rfl
  | succ fuel ih =>
    intro k
    simp only [spawn_loop]
    by_cases h : (bypass || cellFree snake apples (cells k)) = true
    · exact Or.inr ⟨cells k, by simp [h]⟩
    · simp only [if_neg h]
      exact ih (k + 1)

/-- `spawn_apple` appends at most one cell, and never edits the existing
pool. -/
theorem spawn_apple_cases (r : SpawnRand) (snake apples : List Cell) :
    spawn_apple r snake apples = apples ∨
      ∃ c, spawn_apple r snake apples = apples ++ [c] :=
  spawn_loop_cases snake apples _ r.cells 200 0

/-- On success the pool grows by exactly one cell. -/
theorem spawn_apple_succeeds_length (r : SpawnRand) (snake apples : List Cell)
    (h : spawn_succeeds r snake apples) :
    (spawn_apple r snake apples).length = apples.length + 1 := by
  unfold spawn_apple
  by_cases hb : r.roll < bypass_threshold
  · rw [decide_eq_true hb, spawn_loop_pos_bypass snake apples r.cells 200 0 (by omega)]
    simp
  · rw [decide_eq_false hb]
    rcases h with hb' | ⟨i, hi, hfree⟩
    · exact absurd hb' hb
    · have hex : ∃ j, cellFree snake apples (r.cells j) = true := ⟨i, hfree⟩
      have hle : Nat.find hex ≤ i := Nat.find_le hfree
      rw [spawn_loop_first snake apples r.cells 200 0 (Nat.find hex) (Nat.zero_le _)
        (by omega) (Nat.find_spec hex)
        (fun m _ hm => by
          have := Nat.find_min hex hm
          exact Bool.not_eq_true _ ▸ (Bool.eq_false_iff.mpr this))]
      simp

/-- On failure (no bypass and no free draw among the 200) the pool is
returned unchanged: a silent no-op. -/
theorem spawn_apple_fails (r : SpawnRand) (snake apples : List Cell)
    (h : ¬ spawn_succeeds r snake apples) :
    spawn_apple r snake apples = apples := by
  unfold spawn_apple
  unfold spawn_succeeds at h
  push_neg at h
  rw [decide_eq_false (not_lt.mpr h.1)]
  exact spawn_loop_none snake apples r.cells 200 0 fun i _ hi =>
    Bool.eq_false_iff.mpr (h.2 i (by omega))

/-! ### Lemmas about the apple-check loop -/

/-- Splitting a list at the first occurrence of a member. -/
theorem mem_first_split {α : Type} [DecidableEq α] {c : α} :
    ∀ {l : List α}, c ∈ l → ∃ l1 l2, l = l1 ++ c :: l2 ∧ c ∉ l1 := by
  intro l h
  induction l with
  | nil => cases h
  | cons a t ih =>
    by_cases hac : a = c
    · exact ⟨[], t, by rw [hac]; rfl, List.not_mem_nil c⟩
    · have ht : c ∈ t := by
        rcases List.mem_cons.mp h with h1 | h1
        · exact absurd h1.symm hac
        · exact h1
      obtain ⟨l1, l2, rfl, hn⟩ := ih ht
      exact ⟨a :: l1, l2, rfl, by
        intro hmem
        rcases List.mem_cons.mp hmem with h1 | h1
        · exact hac h1.symm
        · exact hn h1⟩

theorem apple_scan_no_match (dir c : Cell) (snake : List Cell) (r : SpawnRand) :
    ∀ rest pre, c ∉ rest →
      apple_scan dir c snake r pre rest = (0, false, pre ++ rest) := by
  intro rest
  induction rest with
  | nil => intro pre _; simp [apple_scan]
  | cons a t ih =>
    intro pre h
    have hac : ¬ a = c := fun hcontra => h (hcontra ▸ List.mem_cons_self a t)
    have ht : c ∉ t := fun hc => h (List.mem_cons_of_mem a hc)
    simp only [apple_scan, if_neg hac]
    rw [ih (pre ++ [a]) ht, List.append_assoc]
    rfl

theorem apple_scan_phantom (dir c : Cell) (snake : List Cell) (r : SpawnRand)
    (hph : dir = ((-1 : Int), (0 : Int)) ∧ c.2 % 2 = 0) :
    ∀ l1 l2 pre, c ∉ l1 →
      apple_scan dir c snake r pre (l1 ++ c :: l2) =
        (0, false, spawn_apple r snake (pre ++ (l1 ++ c :: l2))) := by
  intro l1
  induction l1 with
  | nil =>
    intro l2 pre _
    simp [apple_scan, hph]
  | cons a t ih =>
    intro l2 pre h
    have hac : ¬ a = c := fun hcontra => h (hcontra ▸ List.mem_cons_self a t)
    have ht : c ∉ t := fun hc => h (List.mem_cons_of_mem a hc)
    simp only [List.cons_append, apple_scan, if_neg hac, List.append_eq]
    rw [ih l2 (pre ++ [a]) ht, List.append_assoc]
    rfl

theorem apple_scan_normal (dir c : Cell) (snake : List Cell) (r : SpawnRand)
    (hph : ¬ (dir = ((-1 : Int), (0 : Int)) ∧ c.2 % 2 = 0)) :
    ∀ l1 l2 pre, c ∉ l1 →
      apple_scan dir c snake r pre (l1 ++ c :: l2) =
        (1, true, spawn_apple r snake (pre ++ (l1 ++ l2))) := by
  intro l1
  induction l1 with
  | nil =>
    intro l2 pre _
    rw [List.nil_append]
    simp only [apple_scan]
    rw [if_pos trivial, if_neg hph]
    rfl
  | cons a t ih =>
    intro l2 pre h
    have hac : ¬ a = c := fun hcontra => h (hcontra ▸ List.mem_cons_self a t)
    have ht : c ∉ t := fun hc => h (List.mem_cons_of_mem a hc)
    simp only [List.cons_append, apple_scan, if_neg hac, List.append_eq]
    rw [ih l2 (pre ++ [a]) ht, List.append_assoc]
    rfl

/-! ### Structural lemmas about `step` -/

theorem step_border (r : SpawnRand) (s : GameState)
    (h : ¬ in_bounds (cand_of s)) :
    step r s = game_over_state { s with ticks := s.ticks + 1, direction := dir_of s } := by
  simp only [step]
  rw [if_pos h]

theorem step_barrier (r : SpawnRand) (s : GameState)
    (hin : in_bounds (cand_of s)) (hb : in_barrier s (cand_of s)) :
    step r s = { s with ticks := s.ticks + 1, direction := dir_of s } := by
  simp only [step]
  rw [if_neg (not_not_intro hin), if_pos hb]

theorem step_move (r : SpawnRand) (s : GameState)
    (hin : in_bounds (cand_of s)) (hb : ¬ in_barrier s (cand_of s)) :
    step r s =
      (let n := cand_of s
       let snake1 := s.snake ++ [n]
       let res := apple_scan (dir_of s) n snake1 r [] s.apples
       let snake2 := if res.2.1 then snake1 else snake1.tail
       let s2 : GameState := { s with
         ticks := s.ticks + 1
         direction := dir_of s
         snake := snake2
         score := s.score + res.1
         apples := res.2.2 }
       if snake2.getLastD (0, 0) ∈ snake2.dropLast then game_over_state s2 else s2) := by
  simp only [step]
  rw [if_neg (not_not_intro hin), if_neg hb]

theorem step_direction (r : SpawnRand) (s : GameState) :
    (step r s).direction = dir_of s := by
  simp only [step]
  repeat' split
  all_goals rfl

theorem step_ticks (r : SpawnRand) (s : GameState) :
    (step r s).ticks = s.ticks + 1 := by
  simp only [step]
  repeat' split
  all_goals rfl

theorem resolve_dir_of_ne (t : Nat) (nd d : Cell) (h : nd ≠ (-d.1, -d.2)) :
    resolve_dir t nd d = nd := by
  unfold resolve_dir
  rw [if_pos (Or.inl h)]

/-! ### The snake-in-bounds invariant -/

theorem sib_initSnakeList : ∀ c ∈ initSnakeList, in_bounds c := by decide

theorem reset_snake (full : Bool) (r1 r2 : SpawnRand) (s : GameState) :
    (reset full r1 r2 s).snake = initSnakeList := rfl

theorem init_state_snake (r1 r2 : SpawnRand) (pms : Nat) :
    (init_state r1 r2 pms).snake = initSnakeList := rfl

theorem SnakeStable.comp {f g : GameState → GameState}
    (hg : SnakeStable g) (hf : SnakeStable f) :
    SnakeStable (fun s => g (f s)) := by
  intro s
  rcases hg (f s) with h | h
  · rw [h]; exact hf s
  · exact Or.inr h

theorem ss_start_game : SnakeStable start_game := fun _ => Or.inl rfl

theorem ss_show_help : SnakeStable show_help := fun _ => Or.inl rfl

theorem ss_goto_menu : SnakeStable goto_menu := fun _ => Or.inl rfl

theorem ss_resume_op (pms : Nat) : SnakeStable (resume_op pms) := fun _ => Or.inl rfl

theorem ss_quit_op : SnakeStable quit_op := fun _ => Or.inl rfl

theorem ss_restart_op (r1 r2 : SpawnRand) (pms : Nat) :
    SnakeStable (restart_op r1 r2 pms) := fun _ => Or.inr rfl

/-- `Button.handle` either leaves the state alone or runs the callback
once. -/
theorem button_handle_cases (rect : Rect) (hot : Option GKey)
    (cb : GameState → GameState) (e : GEvent) (s : GameState) :
    button_handle rect hot cb e s = s ∨ button_handle rect hot cb e s = cb s := by
  unfold button_handle
  cases e <;> cases hot <;>
    first
      | exact Or.inl rfl
      | (dsimp only []; split
         · exact Or.inr rfl
         · exact Or.inl rfl)

theorem ss_button_handle (rect : Rect) (hot : Option GKey)
    (cb : GameState → GameState) (e : GEvent) (h : SnakeStable cb) :
    SnakeStable (button_handle rect hot cb e) := by
  intro s
  rcases button_handle_cases rect hot cb e s with he | he
  · rw [he]; exact Or.inl rfl
  · rw [he]; exact h s

theorem slider_handle_snake (e : GEvent) (s : GameState) :
    (slider_handle e s).snake = s.snake := by
  cases e <;> simp only [slider_handle] <;> try rfl
  all_goals split <;> rfl

theorem ss_slider_handle (e : GEvent) : SnakeStable (slider_handle e) :=
  fun s => Or.inl (slider_handle_snake e s)

theorem key_part_snake (r1 r2 : SpawnRand) (pms : Nat) (k : GKey) :
    SnakeStable (key_part r1 r2 pms k) := by
  have h1 : SnakeStable (key_escape k) := by
    intro s
    unfold key_escape
    split
    · exact Or.inl rfl
    · exact Or.inl rfl
  have h2 : SnakeStable (key_pause k) := by
    intro t
    left
    unfold key_pause
    split_ifs <;> rfl
  have h3 : SnakeStable (key_restart r1 r2 pms k) := by
    intro t
    unfold key_restart
    split
    · exact Or.inr rfl
    · exact Or.inl rfl
  have h4 : SnakeStable (key_dir k) := by
    intro t
    left
    unfold key_dir
    split
    · cases k <;> rfl
    · rfl
  intro s
  exact (SnakeStable.comp h4 (SnakeStable.comp h3 (SnakeStable.comp h2 h1))) s

theorem handle_event_snake (r1 r2 : SpawnRand) (pms : Nat) (e : GEvent)
    (s : GameState) :
    (handle_event r1 r2 pms e s).snake = s.snake ∨
    (handle_event r1 r2 pms e s).snake = initSnakeList := by
  have hmenu : SnakeStable (fun t =>
      button_handle btn_quit_rect none quit_op e
        (button_handle btn_help_rect none show_help e
          (button_handle btn_start_rect (some .kreturn) start_game e t))) :=
    SnakeStable.comp (ss_button_handle _ _ _ _ ss_quit_op)
      (SnakeStable.comp (ss_button_handle _ _ _ _ ss_show_help)
        (ss_button_handle _ _ _ _ ss_start_game))
  have hpaused : SnakeStable (fun t =>
      slider_handle e
        (button_handle btn_menu_rect none goto_menu e
          (button_handle btn_restart_rect (some .kr) (restart_op r1 r2 pms) e
            (button_handle btn_resume_rect (some .kp) (resume_op pms) e t)))) :=
    SnakeStable.comp (ss_slider_handle e)
      (SnakeStable.comp (ss_button_handle _ _ _ _ ss_goto_menu)
        (SnakeStable.comp (ss_button_handle _ _ _ _ (ss_restart_op r1 r2 pms))
          (ss_button_handle _ _ _ _ (ss_resume_op pms))))
  have hgameover : SnakeStable (fun t =>
      button_handle btn_quit_rect none quit_op e
        (button_handle btn_menu_rect none goto_menu e
          (button_handle btn_restart_rect (some .kr) (restart_op r1 r2 pms) e t))) :=
    SnakeStable.comp (ss_button_handle _ _ _ _ ss_quit_op)
      (SnakeStable.comp (ss_button_handle _ _ _ _ ss_goto_menu)
        (ss_button_handle _ _ _ _ (ss_restart_op r1 r2 pms)))
  have h1 : (match e with
      | GEvent.keydown k => key_part r1 r2 pms k s
      | _ => s).snake = s.snake ∨ (match e with
      | GEvent.keydown k => key_part r1 r2 pms k s
      | _ => s).snake = initSnakeList := by
    cases e
    case keydown k => exact key_part_snake r1 r2 pms k s
    all_goals exact Or.inl rfl
  simp only [handle_event]
  generalize hgen : (match e with
      | GEvent.keydown k => key_part r1 r2 pms k s
      | _ => s) = s1 at h1 ⊢
  split
  · rcases hmenu s1 with h | h
    · rw [h]; exact h1
    · exact Or.inr h
  · rcases hpaused s1 with h | h
    · rw [h]; exact h1
    · exact Or.inr h
  · rcases hgameover s1 with h | h
    · rw [h]; exact h1
    · exact Or.inr h
  · exact h1

theorem sib_handle_event (r1 r2 : SpawnRand) (pms : Nat) (e : GEvent)
    (s : GameState) (hs : SnakeInBounds s) :
    SnakeInBounds (handle_event r1 r2 pms e s) := by
  rcases handle_event_snake r1 r2 pms e s with h | h
  · intro c hc; rw [h] at hc; exact hs c hc
  · intro c hc; rw [h] at hc; exact sib_initSnakeList c hc

theorem sib_step (r : SpawnRand) (s : GameState) (hs : SnakeInBounds s) :
    SnakeInBounds (step r s) := by
  by_cases hin : in_bounds (cand_of s)
  · by_cases hb : in_barrier s (cand_of s)
    · rw [step_barrier r s hin hb]; intro c hc; exact hs c hc
    · rw [step_move r s hin hb]
      intro c hc
      have hsnake1 : ∀ x ∈ s.snake ++ [cand_of s], in_bounds x := by
        intro x hx
        rcases List.mem_append.mp hx with hx | hx
        · exact hs x hx
        · rw [List.mem_singleton.mp hx]; exact hin
      dsimp only at hc
      split at hc <;> split at hc <;>
        first
          | exact hsnake1 c hc
          | exact hsnake1 c (List.mem_of_mem_tail hc)
  · rw [step_border r s hin]; intro c hc; exact hs c hc

/-- Every reachable state satisfies the snake-in-bounds invariant. -/
theorem reachable_sib : ∀ s, Reachable s → SnakeInBounds s := by
  intro s h
  induction h with
  | startup r1 r2 pms =>
    intro c hc
    rw [init_state_snake] at hc
    exact sib_initSnakeList c hc
  | event s r1 r2 pms e _ ih => exact sib_handle_event r1 r2 pms e s ih
  | tick s r _ _ ih => exact sib_step r s ih

/-! ### Field characterization of a normal (moving) tick -/

theorem step_move_fields (r : SpawnRand) (s : GameState)
    (hin : in_bounds (cand_of s)) (hbar : ¬ in_barrier s (cand_of s)) :
    (step r s).score = s.score +
      (apple_scan (dir_of s) (cand_of s) (s.snake ++ [cand_of s]) r [] s.apples).1 ∧
    (step r s).apples =
      (apple_scan (dir_of s) (cand_of s) (s.snake ++ [cand_of s]) r [] s.apples).2.2 ∧
    (step r s).snake =
      (if (apple_scan (dir_of s) (cand_of s) (s.snake ++ [cand_of s]) r [] s.apples).2.1
       then s.snake ++ [cand_of s] else (s.snake ++ [cand_of s]).tail) := by
  rw [step_move r s hin hbar]
  dsimp only
  repeat' split
  all_goals exact ⟨rfl, rfl, rfl⟩

/-! ### The claims -/

/-- Claim C1: a single pause-toggle command (a `KEYDOWN` of `P`) while
the scene is play leaves the scene paused, and while the scene is paused
leaves it play; nothing else in the game state changes, whatever the
rest of the state is. -/
theorem C1_pause_toggle (s : GameState) (r1 r2 : SpawnRand) (pms : Nat) :
    (s.scene = .play →
      handle_event r1 r2 pms (.keydown .kp) s = { s with scene := .paused }) ∧
    (s.scene = .paused →
      handle_event r1 r2 pms (.keydown .kp) s = { s with scene := .play }) := by
  obtain ⟨sn, dir, nd, tk, sc, bst, spd, spp, ap, ix, iy1, iy2, go, scn, sv, pam, ps, tm⟩ := s
  cases scn
  case play => exact And.intro (fun _ => rfl) (fun h => nomatch h)
  case paused => exact And.intro (fun h => nomatch h) (fun _ => rfl)
  all_goals exact And.intro (fun h => nomatch h) (fun h => nomatch h)

/-- Witness for C1 at a concrete state, in both directions. -/
theorem C1_pause_toggle_witness :
    handle_event cexFailRand cexFailRand 3000 (.keydown .kp) wState =
      { wState with scene := .paused } ∧
    handle_event cexFailRand cexFailRand 3000 (.keydown .kp)
        { wState with scene := .paused } = { wState with scene := .play } :=
  ⟨(C1_pause_toggle wState cexFailRand cexFailRand 3000).1 rfl,
   (C1_pause_toggle { wState with scene := .paused } cexFailRand cexFailRand 3000).2 rfl⟩

/-- Claim C2: with `t` the post-increment tick counter, a pending exact
reversal is rejected when `t % 12 ≠ 0` (the current direction is kept),
accepted when `t % 12 = 0`, and a pending non-reversal is always
applied. -/
theorem C2_reversal_rule (s : GameState) (r : SpawnRand) :
    ((s.next_dir = (-s.direction.1, -s.direction.2) ∧ (s.ticks + 1) % 12 ≠ 0) →
      (step r s).direction = s.direction) ∧
    ((s.next_dir = (-s.direction.1, -s.direction.2) ∧ (s.ticks + 1) % 12 = 0) →
      (step r s).direction = s.next_dir) ∧
    (s.next_dir ≠ (-s.direction.1, -s.direction.2) →
      (step r s).direction = s.next_dir) := by
  refine ⟨fun h => ?_, fun h => ?_, fun h => ?_⟩
  · rw [step_direction, dir_of, resolve_dir,
      if_neg (fun hc => hc.elim (fun hne => hne h.1) h.2)]
  · rw [step_direction, dir_of, resolve_dir, if_pos (Or.inr h.2)]
  · rw [step_direction, dir_of, resolve_dir, if_pos (Or.inl h)]

/-- Witness for C2: a reversal rejected on tick 1, a reversal accepted
on tick 12, and a perpendicular turn applied on tick 1. -/
theorem C2_reversal_rule_witness :
    (step cexFailRand { wState with next_dir := (-1, 0) }).direction = (1, 0) ∧
    (step cexFailRand { wState with next_dir := (-1, 0), ticks := 11 }).direction =
      (-1, 0) ∧
    (step cexFailRand { wState with next_dir := (0, 1) }).direction = (0, 1) :=
  ⟨(C2_reversal_rule { wState with next_dir := (-1, 0) } cexFailRand).1
      ⟨by decide, by decide⟩,
   (C2_reversal_rule { wState with next_dir := (-1, 0), ticks := 11 } cexFailRand).2.1
      ⟨by decide, by decide⟩,
   (C2_reversal_rule { wState with next_dir := (0, 1) } cexFailRand).2.2 (by decide)⟩

/-- Counterexample to claim C5 as stated: a barrier-blocked tick on
which the stored direction changes, so the tick counter is not the only
state change the movement algorithm makes. -/
theorem C5_counterexample :
    in_barrier wBarTurnState (cand_of wBarTurnState) ∧
    (step cexFailRand wBarTurnState).ticks = wBarTurnState.ticks + 1 ∧
    (step cexFailRand wBarTurnState).snake = wBarTurnState.snake ∧
    (step cexFailRand wBarTurnState).direction ≠ wBarTurnState.direction := by
  decide

/-- Claim C5 (amended): a step whose candidate head cell lies in the
invisible barrier (at its reset geometry, column 8, rows 4–15) changes
nothing at all except that the tick counter advances by 1 and the
current direction is replaced by the resolved direction of the tick. -/
theorem C5_barrier_noop (s : GameState) (r : SpawnRand)
    (hx : s.invis_x = 8) (hy1 : s.invis_y1 = 4) (hy2 : s.invis_y2 = 15)
    (hbar : in_barrier s (cand_of s)) :
    step r s = { s with ticks := s.ticks + 1, direction := dir_of s } := by
  have hin : in_bounds (cand_of s) := by
    obtain ⟨h1, h2, h3⟩ := hbar
    rw [hx] at h1
    rw [hy1] at h2
    rw [hy2] at h3
    unfold in_bounds GRID_W GRID_H
    omega
  exact step_barrier r s hin hbar

/-- Witness for the amended C5 at a concrete barrier-blocked state. -/
theorem C5_barrier_noop_witness :
    step cexFailRand wBarState =
      { wBarState with ticks := wBarState.ticks + 1, direction := dir_of wBarState } :=
  C5_barrier_noop wBarState cexFailRand rfl rfl rfl (by decide)

/-- Claim C6: an out-of-bounds candidate ends the round at once (scene
gameover, best updated to `max best score`, snake, apples and score
untouched), and consequently every reachable state keeps every snake
cell inside the grid. -/
theorem C6_border_and_bounds :
    (∀ (s : GameState) (r : SpawnRand), ¬ in_bounds (cand_of s) →
      (step r s).scene = .gameover ∧ (step r s).game_over = true ∧
      (step r s).best = max s.best s.score ∧ (step r s).snake = s.snake ∧
      (step r s).apples = s.apples ∧ (step r s).score = s.score) ∧
    (∀ s, Reachable s → ∀ c ∈ s.snake, in_bounds c) := by
  constructor
  · intro s r h
    rw [step_border r s h]
    exact ⟨rfl, rfl, rfl, rfl, rfl, rfl⟩
  · exact reachable_sib

/-- Witness for C6: the border fires at the right edge, and every cell
of the startup snake is in bounds. -/
theorem C6_border_and_bounds_witness :
    (step cexFailRand wEdgeState).scene = Scene.gameover ∧
    (step cexFailRand wEdgeState).snake = wEdgeState.snake ∧
    in_bounds ((11 : Int), (10 : Int)) :=
  ⟨((C6_border_and_bounds.1 wEdgeState cexFailRand) (by decide)).1,
   ((C6_border_and_bounds.1 wEdgeState cexFailRand) (by decide)).2.2.2.1,
   C6_border_and_bounds.2 (init_state cexFailRand cexFailRand 3000)
     (Reachable.startup cexFailRand cexFailRand 3000) (11, 10) (by decide)⟩

/-- Claim C9: direction resolution runs before the barrier check, so a
barrier-blocked tick can still change the stored direction, and the new
direction determines the next tick's candidate cell. -/
theorem C9_barrier_direction_change (s : GameState) (r : SpawnRand)
    (hres : dir_of s = s.next_dir)
    (hdiff : s.next_dir ≠ s.direction)
    (hnz : s.next_dir ≠ (-s.next_dir.1, -s.next_dir.2))
    (hin : in_bounds (cand_of s))
    (hbar : in_barrier s (cand_of s)) :
    (step r s).direction = s.next_dir ∧
    (step r s).direction ≠ s.direction ∧
    (step r s).snake = s.snake ∧
    cand_of (step r s) =
      ((head_cell s).1 + s.next_dir.1, (head_cell s).2 + s.next_dir.2) := by
  have hstep := step_barrier r s hin hbar
  refine ⟨?_, ?_, ?_, ?_⟩
  · rw [step_direction, hres]
  · rw [step_direction, hres]; exact hdiff
  · rw [hstep]
  · rw [hstep]
    unfold cand_of
    rw [show head_cell { s with ticks := s.ticks + 1, direction := dir_of s } =
          head_cell s from rfl,
        show dir_of { s with ticks := s.ticks + 1, direction := dir_of s } =
          resolve_dir (s.ticks + 1 + 1) s.next_dir (dir_of s) from rfl,
        hres, resolve_dir_of_ne _ _ _ hnz]

/-- Witness for C9: a pending right-turn is stored on a barrier-blocked
tick even though the snake does not move. -/
theorem C9_barrier_direction_change_witness :
    (step cexFailRand wBarTurnState).direction = (1, 0) ∧
    (step cexFailRand wBarTurnState).snake = wBarTurnState.snake ∧
    cand_of (step cexFailRand wBarTurnState) = (8, 10) :=
  ⟨(C9_barrier_direction_change wBarTurnState cexFailRand (by decide) (by decide)
      (by decide) (by decide) (by decide)).1,
   (C9_barrier_direction_change wBarTurnState cexFailRand (by decide) (by decide)
      (by decide) (by decide) (by decide)).2.2.1,
   (C9_barrier_direction_change wBarTurnState cexFailRand (by decide) (by decide)
      (by decide) (by decide) (by decide)).2.2.2⟩

/-- Counterexample to claim C3 as stated: a phantom-consumption step on
which `spawn_apple` exhausts its 200 attempts (no bypass, every draw on
a snake cell), so the apple pool does not grow by 1. -/
theorem C3_counterexample :
    dir_of cexPhantomState = (-1, 0) ∧
    cand_of cexPhantomState ∈ cexPhantomState.apples ∧
    (cand_of cexPhantomState).2 % 2 = 0 ∧
    (step cexFailRand cexPhantomState).apples.length =
      cexPhantomState.apples.length := by
  decide

/-- Claim C3 (amended): on a phantom-consumption step (candidate cell
holds an apple, resolved direction `(-1, 0)`, even apple row, move
actually performed) score and snake length are unchanged and the
original pool survives as a prefix of the new pool; the pool grows by
exactly 1 when `spawn_apple` succeeds and is completely unchanged when
it exhausts its 200 draws. -/
theorem C3_phantom (s : GameState) (r : SpawnRand)
    (hdir : dir_of s = ((-1 : Int), (0 : Int)))
    (hmem : cand_of s ∈ s.apples)
    (heven : (cand_of s).2 % 2 = 0)
    (hin : in_bounds (cand_of s))
    (hbar : ¬ in_barrier s (cand_of s)) :
    (step r s).score = s.score ∧
    (step r s).snake.length = s.snake.length ∧
    (step r s).apples = spawn_apple r (s.snake ++ [cand_of s]) s.apples ∧
    (∃ tl, (step r s).apples = s.apples ++ tl) ∧
    (spawn_succeeds r (s.snake ++ [cand_of s]) s.apples →
      (step r s).apples.length = s.apples.length + 1) ∧
    (¬ spawn_succeeds r (s.snake ++ [cand_of s]) s.apples →
      (step r s).apples = s.apples) := by
  obtain ⟨l1, l2, hsplit, hnotin⟩ := mem_first_split hmem
  have hscan := apple_scan_phantom (dir_of s) (cand_of s) (s.snake ++ [cand_of s]) r
    ⟨hdir, heven⟩ l1 l2 [] hnotin
  rw [List.nil_append, ← hsplit] at hscan
  obtain ⟨hscore, happles, hsnake⟩ := step_move_fields r s hin hbar
  rw [hscan] at hscore happles hsnake
  refine ⟨?_, ?_, ?_, ?_, ?_, ?_⟩
  · rw [hscore]
    rfl
  · rw [hsnake]
    show ((s.snake ++ [cand_of s]).tail).length = s.snake.length
    rw [List.length_tail, List.length_append, List.length_singleton,
      Nat.add_sub_cancel]
  · exact happles
  · rcases spawn_apple_cases r (s.snake ++ [cand_of s]) s.apples with h | ⟨c, h⟩
    · exact ⟨[], by rw [happles, h, List.append_nil]⟩
    · exact ⟨[c], by rw [happles, h]⟩
  · intro hsucc
    rw [happles]
    exact spawn_apple_succeeds_length r _ _ hsucc
  · intro hfail
    rw [happles]
    exact spawn_apple_fails r _ _ hfail

/-- Witness for the amended C3: with a bypass-passing oracle the phantom
step leaves score and length alone and grows the pool by exactly 1. -/
theorem C3_phantom_witness :
    (step wBypassRand cexPhantomState).score = cexPhantomState.score ∧
    (step wBypassRand cexPhantomState).snake.length =
      cexPhantomState.snake.length ∧
    (step wBypassRand cexPhantomState).apples.length =
      cexPhantomState.apples.length + 1 := by
  have H := C3_phantom cexPhantomState wBypassRand (by decide) (by decide)
    (by decide) (by decide) (by decide)
  exact ⟨H.1, H.2.1, H.2.2.2.2.1 (Or.inl (by decide))⟩

/-- Counterexample to claim C4 as stated: a normal consumption on which
the replacement `spawn_apple` exhausts its 200 attempts, so the net
apple-pool size shrinks by one instead of staying unchanged. -/
theorem C4_counterexample :
    cand_of cexNormalState ∈ cexNormalState.apples ∧
    ¬ (dir_of cexNormalState = (-1, 0) ∧ (cand_of cexNormalState).2 % 2 = 0) ∧
    (step cexFailRand cexNormalState).score = cexNormalState.score + 1 ∧
    cexNormalState.apples.length = 1 ∧
    (step cexFailRand cexNormalState).apples.length = 0 := by
  decide

/-- Claim C4 (amended): on a normal consumption (candidate cell holds an
apple, phantom condition false, move actually performed) score and snake
length grow by exactly 1 and the first matching apple is removed; the
pool size is net unchanged when the replacement `spawn_apple` succeeds
and shrinks by 1 when it exhausts its 200 draws. -/
theorem C4_normal (s : GameState) (r : SpawnRand)
    (hmem : cand_of s ∈ s.apples)
    (hnph : ¬ (dir_of s = ((-1 : Int), (0 : Int)) ∧ (cand_of s).2 % 2 = 0))
    (hin : in_bounds (cand_of s))
    (hbar : ¬ in_barrier s (cand_of s)) :
    (step r s).score = s.score + 1 ∧
    (step r s).snake.length = s.snake.length + 1 ∧
    ∃ l1 l2, s.apples = l1 ++ cand_of s :: l2 ∧ cand_of s ∉ l1 ∧
      (step r s).apples = spawn_apple r (s.snake ++ [cand_of s]) (l1 ++ l2) ∧
      (spawn_succeeds r (s.snake ++ [cand_of s]) (l1 ++ l2) →
        (step r s).apples.length = s.apples.length) ∧
      (¬ spawn_succeeds r (s.snake ++ [cand_of s]) (l1 ++ l2) →
        (step r s).apples.length + 1 = s.apples.length) := by
  obtain ⟨l1, l2, hsplit, hnotin⟩ := mem_first_split hmem
  have hscan := apple_scan_normal (dir_of s) (cand_of s) (s.snake ++ [cand_of s]) r
    hnph l1 l2 [] hnotin
  rw [List.nil_append] at hscan
  rw [← hsplit] at hscan
  obtain ⟨hscore, happles, hsnake⟩ := step_move_fields r s hin hbar
  rw [hscan] at hscore happles hsnake
  have hlen : s.apples.length = l1.length + 1 + l2.length := by
    rw [hsplit, List.length_append, List.length_cons]
    omega
  refine ⟨?_, ?_, l1, l2, hsplit, hnotin, happles, ?_, ?_⟩
  · rw [hscore]
  · rw [hsnake]
    show (s.snake ++ [cand_of s]).length = s.snake.length + 1
    rw [List.length_append, List.length_singleton]
  · intro hsucc
    rw [happles, spawn_apple_succeeds_length r _ _ hsucc, List.length_append, hlen]
    omega
  · intro hfail
    rw [happles, spawn_apple_fails r _ _ hfail, List.length_append, hlen]
    omega

/-- Witness for the amended C4: with a bypass-passing oracle, a normal
consumption scores 1, grows the snake by 1 and leaves the pool size net
unchanged. -/
theorem C4_normal_witness :
    (step wBypassRand cexNormalState).score = 1 ∧
    (step wBypassRand cexNormalState).snake.length = 4 ∧
    (step wBypassRand cexNormalState).apples.length =
      cexNormalState.apples.length := by
  have H := C4_normal cexNormalState wBypassRand (by decide) (by decide)
    (by decide) (by decide)
  obtain ⟨hsc, hsn, l1, l2, hsplit, hnotin, happ, hsucc, hfail⟩ := H
  exact ⟨hsc, hsn, hsucc (Or.inl (by decide))⟩

/-- Claim C10: a moving step acts on at most one apple — score grows by
at most 1, at most one pool entry (the first one at the candidate cell)
is removed, at most one replacement is appended, and stacked duplicates
at the candidate cell lose at most one copy. -/
theorem C10_first_apple_only (s : GameState) (r : SpawnRand)
    (hin : in_bounds (cand_of s)) (hbar : ¬ in_barrier s (cand_of s)) :
    (step r s).score ≤ s.score + 1 ∧
    s.apples.count (cand_of s) ≤ (step r s).apples.count (cand_of s) + 1 ∧
    s.apples.length ≤ (step r s).apples.length + 1 ∧
    (step r s).apples.length ≤ s.apples.length + 1 ∧
    ∃ spawned : List Cell, spawned.length ≤ 1 ∧
      ((step r s).apples = s.apples ++ spawned ∨
        ∃ l1 l2, s.apples = l1 ++ cand_of s :: l2 ∧ cand_of s ∉ l1 ∧
          (step r s).apples = (l1 ++ l2) ++ spawned) := by
  obtain ⟨hscore, happles, hsnake⟩ := step_move_fields r s hin hbar
  by_cases hmem : cand_of s ∈ s.apples
  · obtain ⟨l1, l2, hsplit, hnotin⟩ := mem_first_split hmem
    by_cases hph : dir_of s = ((-1 : Int), (0 : Int)) ∧ (cand_of s).2 % 2 = 0
    · have hscan := apple_scan_phantom (dir_of s) (cand_of s)
        (s.snake ++ [cand_of s]) r hph l1 l2 [] hnotin
      rw [List.nil_append, ← hsplit] at hscan
      rw [hscan] at hscore happles
      have htl : ∃ tl : List Cell, tl.length ≤ 1 ∧
          (step r s).apples = s.apples ++ tl := by
        rcases spawn_apple_cases r (s.snake ++ [cand_of s]) s.apples with h | ⟨c, h⟩
        · exact ⟨[], by simp, by rw [happles, h, List.append_nil]⟩
        · exact ⟨[c], by simp, by rw [happles, h]⟩
      obtain ⟨tl, htl1, htl2⟩ := htl
      refine ⟨?_, ?_, ?_, ?_, tl, htl1, Or.inl htl2⟩
      · rw [hscore]; omega
      · rw [htl2, List.count_append]; omega
      · rw [htl2, List.length_append]; omega
      · rw [htl2, List.length_append]; omega
    · have hscan := apple_scan_normal (dir_of s) (cand_of s)
        (s.snake ++ [cand_of s]) r hph l1 l2 [] hnotin
      rw [List.nil_append, ← hsplit] at hscan
      rw [hscan] at hscore happles
      have htl : ∃ tl : List Cell, tl.length ≤ 1 ∧
          (step r s).apples = (l1 ++ l2) ++ tl := by
        rcases spawn_apple_cases r (s.snake ++ [cand_of s]) (l1 ++ l2) with h | ⟨c, h⟩
        · exact ⟨[], by simp, by rw [happles, h, List.append_nil]⟩
        · exact ⟨[c], by simp, by rw [happles, h]⟩
      obtain ⟨tl, htl1, htl2⟩ := htl
      have hcnt1 : l1.count (cand_of s) = 0 := List.count_eq_zero.mpr hnotin
      refine ⟨?_, ?_, ?_, ?_, tl, htl1, Or.inr ⟨l1, l2, hsplit, hnotin, htl2⟩⟩
      · rw [hscore]
      · rw [htl2, hsplit]
        simp only [List.count_append, List.count_cons_self, hcnt1]
        omega
      · rw [htl2, hsplit]
        simp only [List.length_append, List.length_cons]
        omega
      · rw [htl2, hsplit]
        simp only [List.length_append, List.length_cons]
        omega
  · have hscan := apple_scan_no_match (dir_of s) (cand_of s)
      (s.snake ++ [cand_of s]) r s.apples [] hmem
    rw [List.nil_append] at hscan
    rw [hscan] at hscore happles
    have happles2 : (step r s).apples = s.apples := happles
    have hscore2 : (step r s).score = s.score := hscore
    refine ⟨?_, ?_, ?_, ?_, [], by simp,
      Or.inl (by rw [happles2, List.append_nil])⟩
    · rw [hscore2]; omega
    · rw [happles2]; omega
    · rw [happles2]; omega
    · rw [happles2]; omega

/-- Witness for C10 at a state with three stacked duplicate apples on
the candidate cell: at most one is consumed. -/
theorem C10_first_apple_only_witness :
    (step wBypassRand cexDupState).score ≤ cexDupState.score + 1 ∧
    cexDupState.apples.count (cand_of cexDupState) ≤
      (step wBypassRand cexDupState).apples.count (cand_of cexDupState) + 1 := by
  have H := C10_first_apple_only cexDupState wBypassRand (by decide) (by decide)
  exact ⟨H.1, H.2.1⟩

/-- Claim C7: `spawn_apple` evaluates its bypass roll once per call; on
bypass the first draw is appended unconditionally; otherwise a draw is
appended only if free, at most 200 draws are examined, exhaustion is a
silent no-op, and in every case at most one apple is appended. -/
theorem C7_spawn_policy (r : SpawnRand) (snake apples : List Cell) :
    (r.roll < bypass_threshold →
      spawn_apple r snake apples = apples ++ [r.cells 0]) ∧
    (¬ r.roll < bypass_threshold →
      ((∀ i < 200, cellFree snake apples (r.cells i) = false) →
        spawn_apple r snake apples = apples) ∧
      (∀ j, j < 200 → cellFree snake apples (r.cells j) = true →
        (∀ i < j, cellFree snake apples (r.cells i) = false) →
        spawn_apple r snake apples = apples ++ [r.cells j])) ∧
    (spawn_apple r snake apples = apples ∨
      ∃ c, spawn_apple r snake apples = apples ++ [c]) := by
  refine ⟨fun hb => ?_, fun hb => ⟨fun hall => ?_, fun j hj hfree hmin => ?_⟩, ?_⟩
  · unfold spawn_apple
    rw [decide_eq_true hb]
    exact spawn_loop_pos_bypass snake apples r.cells 200 0 (by omega)
  · refine spawn_apple_fails r snake apples (fun hs => hs.elim hb (fun h => ?_))
    obtain ⟨i, hi, hf⟩ := h
    rw [hall i hi] at hf
    exact Bool.false_ne_true hf
  · unfold spawn_apple
    rw [decide_eq_false hb]
    exact spawn_loop_first snake apples r.cells 200 0 j (Nat.zero_le j) (by omega)
      hfree (fun i _ hij => hmin i hij)
  · exact spawn_apple_cases r snake apples

set_option maxRecDepth 4000 in
/-- Witness for C7: a bypass call appends its first draw, a non-bypass
call appends its first free draw, and a saturated non-bypass call is a
no-op. -/
theorem C7_spawn_policy_witness :
    spawn_apple wBypassRand initSnakeList [] = [(0, 0)] ∧
    spawn_apple wFreeRand initSnakeList [] = [(5, 5)] ∧
    spawn_apple cexFailRand [(13, 10)] [] = [] := by
  refine ⟨?_, ?_, ?_⟩
  · exact (C7_spawn_policy wBypassRand initSnakeList []).1 (by decide)
  · exact ((C7_spawn_policy wFreeRand initSnakeList []).2.1 (by decide)).2 0
      (by decide) (by decide) (fun i hi => absurd hi (Nat.not_lt_zero i))
  · exact ((C7_spawn_policy cexFailRand [(13, 10)] []).2.1 (by decide)).1 (by decide)

set_option maxRecDepth 4000 in
/-- While paused, a drag event either misses the slider (no change) or
updates only the slider value. -/
theorem handle_event_drag (r1 r2 : SpawnRand) (pms : Nat) (e : GEvent)
    (s : GameState) (hsc : s.scene = .paused) (hd : drag_event e) :
    handle_event r1 r2 pms e s = s ∨
    ∃ pos, handle_event r1 r2 pms e s = slider_update_value pos s := by
  cases e
  case keydown k => exact hd.elim
  case keyup k => exact hd.elim
  case mousebuttonup b pos => exact hd.elim
  case mousebuttondown b pos =>
    obtain ⟨sn, dir, nd, tk, sc, bst, spd, spp, ap, ix, iy1, iy2, go, scn, sv, pam,
      ps, tm⟩ := s
    cases scn
    case paused =>
      simp only [handle_event, button_handle, slider_handle]
      split
      · exact Or.inr ⟨pos, rfl⟩
      · exact Or.inl rfl
    all_goals exact nomatch hsc
  case mousemotion lp pos =>
    obtain ⟨sn, dir, nd, tk, sc, bst, spd, spp, ap, ix, iy1, iy2, go, scn, sv, pam,
      ps, tm⟩ := s
    cases scn
    case paused =>
      simp only [handle_event, button_handle, slider_handle]
      split
      · exact Or.inr ⟨pos, rfl⟩
      · exact Or.inl rfl
    all_goals exact nomatch hsc

/-- Claim C8: the applied tick rate is an integer clamped to
`[6, MAX_FPS]`, recomputed by linear interpolation only at process start
and on restart; slider drags while paused update the slider value but
never the applied rate, and a simulation tick never changes it either. -/
theorem C8_timing_latency :
    (∀ (s : GameState) (events : List GEvent) (r1 r2 : SpawnRand) (pms : Nat),
      s.scene = .paused → (∀ e ∈ events, drag_event e) →
      (run_events r1 r2 pms events s).speed = s.speed ∧
      (run_events r1 r2 pms events s).scene = .paused) ∧
    (∀ (s : GameState) (r1 r2 : SpawnRand) (pms : Nat),
      (restart_op r1 r2 pms s).speed =
        max 6 (min MAX_FPS (pyint (lerp 6 (MAX_FPS : ℚ) s.slider_value))) ∧
      6 ≤ (restart_op r1 r2 pms s).speed ∧
      (restart_op r1 r2 pms s).speed ≤ MAX_FPS) ∧
    (∀ (r1 r2 : SpawnRand) (pms : Nat),
      (init_state r1 r2 pms).speed =
        clampI (pyint (lerp 6 (MAX_FPS : ℚ)
          (((FPS_BASE : ℚ) - 6) / ((MAX_FPS : ℚ) - 6)))) 6 MAX_FPS ∧
      6 ≤ (init_state r1 r2 pms).speed ∧
      (init_state r1 r2 pms).speed ≤ MAX_FPS) ∧
    (∀ (s : GameState) (r : SpawnRand), (step r s).speed = s.speed) ∧
    (∀ (s : GameState) (b : Nat) (pos : Int × Int) (r1 r2 : SpawnRand) (pms : Nat),
      s.scene = .paused → (b == 1 && collidepoint slider_rect pos) = true →
      handle_event r1 r2 pms (.mousebuttondown b pos) s =
        slider_update_value pos s) := by
  refine ⟨?_, ?_, ?_, ?_, ?_⟩
  · intro s events r1 r2 pms
    induction events generalizing s with
    | nil => intro hsc _; exact ⟨rfl, hsc⟩
    | cons e es ih =>
      intro hsc hall
      simp only [run_events]
      have hde : drag_event e := hall e (List.mem_cons_self e es)
      have hall2 : ∀ x ∈ es, drag_event x :=
        fun x hx => hall x (List.mem_cons_of_mem e hx)
      rcases handle_event_drag r1 r2 pms e s hsc hde with h | ⟨pos, h⟩
      · rw [h]
        exact ih s hsc hall2
      · rw [h]
        exact ih (slider_update_value pos s) hsc hall2
  · intro s r1 r2 pms
    refine ⟨rfl, le_max_left 6 _, max_le (by decide) (min_le_left _ _)⟩
  · intro r1 r2 pms
    refine ⟨rfl, le_max_left 6 _, max_le (by decide) (min_le_left _ _)⟩
  · intro s r
    simp only [step]
    repeat' split
    all_goals rfl
  · intro s b pos r1 r2 pms hsc hcol
    obtain ⟨sn, dir, nd, tk, sc, bst, spd, spp, ap, ix, iy1, iy2, go, scn, sv, pam,
      ps, tm⟩ := s
    cases scn
    case paused =>
      simp only [handle_event, button_handle, slider_handle]
      rw [if_pos hcol]
    all_goals exact nomatch hsc

/-- Witness for C8: two slider drags while paused leave the applied rate
untouched, the restart-applied rate is at least 6, and a drag inside the
slider rectangle sets the slider value. -/
theorem C8_timing_latency_witness :
    (run_events cexFailRand cexFailRand 3000 [dragEv, dragEv] wPausedState).speed =
      wPausedState.speed ∧
    6 ≤ (restart_op cexFailRand cexFailRand 3000 wPausedState).speed ∧
    handle_event cexFailRand cexFailRand 3000 dragEv wPausedState =
      slider_update_value (700, 240) wPausedState := by
  refine ⟨?_, ?_, ?_⟩
  · refine (C8_timing_latency.1 wPausedState [dragEv, dragEv] cexFailRand cexFailRand
      3000 rfl ?_).1
    intro e he
    rcases List.mem_cons.mp he with rfl | he
    · trivial
    rcases List.mem_cons.mp he with rfl | he
    · trivial
    · cases he
  · exact (C8_timing_latency.2.1 wPausedState cexFailRand cexFailRand 3000).2.1
  · exact C8_timing_latency.2.2.2.2 wPausedState 1 (700, 240) cexFailRand cexFailRand
      3000 rfl (by decide)

end Snake3D
